import Mathlib

/-!
Shallow embedding of the tempo-tesnet deployment bot (`src/run.js`).

The script is a single sequential orchestration loop.  We embed its pure
computations directly (random draws become explicit rational parameters in
`[0,1)` standing for the values produced by `Math.random()`), and its
effectful chain interactions as an explicit environment (`ChainEnv`) of
per-call results, with each fallible `await` modelled as `Except String`.
A trace of chain-client entry points invoked is computed alongside each
deployment attempt so that "never invoked" claims can be stated.
-/

namespace TempoBot

/-- CONFIG.MIN_DEPLOY_COUNT from `run.js`. -/
def MIN_DEPLOY_COUNT : ℤ := 2

/-- CONFIG.MAX_DEPLOY_COUNT from `run.js`. -/
def MAX_DEPLOY_COUNT : ℤ := 4

/-- CONFIG.INTERVAL_OPTIONS from `run.js` (hours). -/
def INTERVAL_OPTIONS : List ℤ := [6, 12, 24]

/-- CONFIG.MIN_DELAY_BETWEEN_WALLETS from `run.js` (seconds). -/
def MIN_DELAY_BETWEEN_WALLETS : ℤ := 5

/-- CONFIG.MAX_DELAY_BETWEEN_WALLETS from `run.js` (seconds). -/
def MAX_DELAY_BETWEEN_WALLETS : ℤ := 30

/-- CONFIG.GAS_LIMIT from `run.js`. -/
def GAS_LIMIT : ℤ := 3000000

/-- CONFIG.EXPLORER_URL from `run.js`. -/
def EXPLORER_URL : String := "https://explore.tempo.xyz"

/-- Function `getRandomInt(min, max)` from `run.js`:
`Math.floor(Math.random() * (max - min + 1)) + min`, with the
`Math.random()` draw made explicit as a rational `r ∈ [0,1)`. -/
def getRandomInt (min max : ℤ) (r : ℚ) : ℤ :=
  ⌊r * ((max : ℚ) - (min : ℚ) + 1)⌋ + min

/-- Function `getRandomElement(array)` from `run.js`:
`array[Math.floor(Math.random() * array.length)]`, with the draw explicit.
JavaScript indexing out of range yields `undefined`; we model the lookup
with `Option`. -/
def getRandomElement {α : Type} (array : List α) (r : ℚ) : Option α :=
  array[(⌊r * (array.length : ℚ)⌋).toNat]?

/-- The fixed message set of `getRandomMessage` in `run.js`. -/
def messages : List String :=
  ["Hello Tempo", "GM Tempo", "GN Tempo", "Testing Tempo",
   "Done Tempo", "Success Tempo", "Deployed Tempo", "Started Tempo"]

/-- Function `getRandomMessage()` from `run.js`. -/
def getRandomMessage (r : ℚ) : Option String :=
  getRandomElement messages r

/-- The inter-deployment wait computed in `processWallet` (`run.js` lines
233-236): `totalWait = intervalHours * 3600 + getRandomInt(-600, 600)`.
`r` is the `Math.random()` draw feeding `getRandomInt`. -/
def interDeployDelay (intervalHours : ℤ) (r : ℚ) : ℤ :=
  intervalHours * 3600 + getRandomInt (-600) 600 r

/-- The whitespace characters stripped by `trim` in the credential file
(the ASCII whitespace relevant to a key-per-line text file). -/
def isWhitespaceChar (c : Char) : Bool :=
  c == ' ' || c == '\t' || c == '\n' || c == '\r'

/-- JavaScript `content.split('\n')` on the file content, modelled on the
character sequence: `''.split('\n') = ['']`, and each `'\n'` starts a new
(possibly empty) chunk. -/
def splitLines : List Char → List (List Char)
  | [] => [[]]
  | c :: rest =>
    if c = '\n' then [] :: splitLines rest
    else
      match splitLines rest with
      | [] => [[c]]
      | line :: ls => (c :: line) :: ls

/-- JavaScript `line.trim()`: drop whitespace from both ends. -/
def trimChars (cs : List Char) : List Char :=
  ((cs.dropWhile isWhitespaceChar).reverse.dropWhile isWhitespaceChar).reverse

/-- Function `getPrivateKeys()` from `run.js`, with the file content passed in as
its character sequence: split on newlines, trim each line, keep nonempty
lines not starting with `#`. -/
def getPrivateKeys (content : List Char) : List (List Char) :=
  ((splitLines content).map trimChars).filter
    (fun line => !line.isEmpty && !(line.head? == some '#'))

/-! ### The wallet shuffle (`shuffleArray`, `run.js` lines 208-215)

`shuffleArray` first copies its argument (`const shuffled = [...array]`)
and then runs a Fisher–Yates downward loop of in-place swaps on the copy
only.  To state the frame property (the input array is never written) we
model the two JavaScript arrays explicitly as a two-field state and thread
every loop iteration through it: each iteration writes only the `shuffled`
field. -/

/-- One JavaScript swap `[l[i], l[j]] = [l[j], l[i]]` on a list.  If either
index is out of range the JavaScript swap would touch `undefined` slots;
the draws in `shuffleArray` always keep `j ≤ i < length`, so the fallback
branch is never reached during a run. -/
def swapIdx {α : Type} (l : List α) (i j : ℕ) : List α :=
  match l[i]?, l[j]? with
  | some x, some y => (l.set i y).set j x
  | _, _ => l

/-- The two arrays alive inside `shuffleArray`: the caller's `array`
argument and the local copy `shuffled`. -/
structure ShuffleState (α : Type) where
  input : List α
  shuffled : List α
deriving Repr, DecidableEq

/-- One iteration of the `shuffleArray` loop at counter value `i ≥ 1`:
`j = Math.floor(Math.random() * (i + 1))`, then swap positions `i` and `j`
of the copy.  Only the `shuffled` field is written. -/
def shuffleStep {α : Type} (rs : ℕ → ℚ) (s : ShuffleState α) (i : ℕ) :
    ShuffleState α :=
  { s with shuffled := swapIdx s.shuffled i (⌊rs i * ((i : ℚ) + 1)⌋).toNat }

/-- The `for (let i = shuffled.length - 1; i > 0; i--)` loop of
`shuffleArray`, run from counter value `i` down to `1`. -/
def shuffleLoop {α : Type} (rs : ℕ → ℚ) : ShuffleState α → ℕ → ShuffleState α
  | s, 0 => s
  | s, i + 1 => shuffleLoop rs (shuffleStep rs s (i + 1)) i

/-- Function `shuffleArray(array)` from `run.js`, returning the final state of both
arrays: the copy is initialised to the input, then the downward swap loop
runs on the copy. -/
def shuffleArrayRun {α : Type} (array : List α) (rs : ℕ → ℚ) :
    ShuffleState α :=
  shuffleLoop rs { input := array, shuffled := array } (array.length - 1)

/-- The value returned by `shuffleArray(array)`. -/
def shuffleArray {α : Type} (array : List α) (rs : ℕ → ℚ) : List α :=
  (shuffleArrayRun array rs).shuffled

/-! ### The Deployment Executor (`deployContract`, `run.js` lines 126-206)

Every `await` on the chain client may reject; we model each as an
`Except String` result supplied by the environment, in program order:
balance query, deployment submission (`factory.deploy`),
`waitForDeployment`, `getAddress`, the `message()` read-back, the
`setMessage` submission, `tx.wait`, and the second `message()` read.
The random draws (`Math.random()` values) feeding the gas limits, the
follow-up branch decision, the pacing delay and the message choice are
explicit rational fields. -/

/-- Per-attempt environment: the chain client's responses and the random
draws consumed by one `deployContract` invocation. -/
structure ChainEnv where
  balanceRes : Except String ℕ
  gasDraw : ℚ
  deploySubmitRes : Except String Unit
  waitDeployRes : Except String Unit
  getAddressRes : Except String String
  messageRes : Except String String
  updateDraw : ℚ
  pacingDraw : ℚ
  msgDraw : ℚ
  setGasDraw : ℚ
  sendRes : Except String String
  waitTxRes : Except String Unit
  message2Res : Except String String
  now : String
deriving Repr

/-- The chain-client entry points `deployContract` can invoke. -/
inductive ChainCall where
  | getBalance
  | deploySubmit
  | waitDeployment
  | getAddress
  | readMessage
  | sendSetMessage
  | waitTx
deriving Repr, DecidableEq

/-- The error thrown by `deployContract` when the balance is exactly
zero (`run.js` line 137). -/
def BALANCE_ZERO_MSG : String := "Balance 0! Skip wallet ini"

/-- The body of the `try` block of `deployContract` (`run.js` lines
127-193), returning the contract address and the (possibly null) follow-up
transaction hash on success, the thrown error message on failure, together
with the trace of chain-client entry points invoked.  The structure
mirrors the source line by line: balance check and zero-balance throw,
random gas draw, deploy, wait, address read, message read-back, then the
`Math.random() > 0.3` branch with pacing delay, message pick, `setMessage`
submission, `tx.wait` and second read-back. -/
def deployBody (env : ChainEnv) :
    Except String (String × Option String) × List ChainCall :=
  match env.balanceRes with
  | .error e => (.error e, [.getBalance])
  | .ok balance =>
    if balance = 0 then
      (.error BALANCE_ZERO_MSG, [.getBalance])
    else
      let _randomGas := getRandomInt 2500000 GAS_LIMIT env.gasDraw
      match env.deploySubmitRes with
      | .error e => (.error e, [.getBalance, .deploySubmit])
      | .ok _ =>
        match env.waitDeployRes with
        | .error e => (.error e, [.getBalance, .deploySubmit, .waitDeployment])
        | .ok _ =>
          match env.getAddressRes with
          | .error e =>
            (.error e,
             [.getBalance, .deploySubmit, .waitDeployment, .getAddress])
          | .ok contractAddress =>
            match env.messageRes with
            | .error e =>
              (.error e,
               [.getBalance, .deploySubmit, .waitDeployment, .getAddress,
                .readMessage])
            | .ok _message =>
              if env.updateDraw > 3/10 then
                let _randomDelay := getRandomInt 2 5 env.pacingDraw
                let _newMsg := getRandomMessage env.msgDraw
                let _setGas := getRandomInt 80000 120000 env.setGasDraw
                match env.sendRes with
                | .error e =>
                  (.error e,
                   [.getBalance, .deploySubmit, .waitDeployment, .getAddress,
                    .readMessage, .sendSetMessage])
                | .ok txHash =>
                  match env.waitTxRes with
                  | .error e =>
                    (.error e,
                     [.getBalance, .deploySubmit, .waitDeployment,
                      .getAddress, .readMessage, .sendSetMessage, .waitTx])
                  | .ok _ =>
                    match env.message2Res with
                    | .error e =>
                      (.error e,
                       [.getBalance, .deploySubmit, .waitDeployment,
                        .getAddress, .readMessage, .sendSetMessage, .waitTx,
                        .readMessage])
                    | .ok _ =>
                      (.ok (contractAddress, some txHash),
                       [.getBalance, .deploySubmit, .waitDeployment,
                        .getAddress, .readMessage, .sendSetMessage, .waitTx,
                        .readMessage])
              else
                (.ok (contractAddress, none),
                 [.getBalance, .deploySubmit, .waitDeployment, .getAddress,
                  .readMessage])

/-- The trace of chain-client entry points invoked by one
`deployContract` attempt. -/
def deployTrace (env : ChainEnv) : List ChainCall :=
  (deployBody env).2

/-- One `DeploymentOutcome` record as returned by `deployContract`.
JavaScript object fields that are absent on one of the two return paths
are modelled with `Option` (`none` = field absent); `txHash` is
`Option (Option String)` because the success object always carries the
field, possibly with value `null` (`some none`). -/
structure Outcome where
  success : Bool
  deployer : String
  contractAddress : Option String
  txHash : Option (Option String)
  explorer : Option String
  error : Option String
  timestamp : String
  walletIndex : ℕ
  deployNumber : ℕ
deriving Repr, DecidableEq

/-- Function `deployContract(wallet, abi, bytecode, deployNumber, walletIndex)`
from `run.js`: run the try-block body; on success build the success
object (lines 184-193), on any thrown error build the failure object of
the `catch` block (lines 195-205).  The function is total: every failure
is converted to data. -/
def deployContract (env : ChainEnv) (walletAddress : String)
    (deployNumber walletIndex : ℕ) : Outcome :=
  match (deployBody env).1 with
  | .ok (contractAddress, txHash) =>
    { success := true
      deployer := walletAddress
      contractAddress := some contractAddress
      txHash := some txHash
      explorer := some (EXPLORER_URL ++ "/address/" ++ contractAddress)
      error := none
      timestamp := env.now
      walletIndex := walletIndex
      deployNumber := deployNumber }
  | .error msg =>
    { success := false
      deployer := walletAddress
      contractAddress := none
      txHash := none
      explorer := none
      error := some msg
      timestamp := env.now
      walletIndex := walletIndex
      deployNumber := deployNumber }

/-! ### Per-wallet processing and the main run (`run.js` lines 217-354)

`processWallet` draws a deploy count in `[2,4]` and an interval from
`{6,12,24}` hours, then performs `deployCount` attempts, the `k`-th with
`deployNumber = walletIndex*100 + k + 1` and the 1-based wallet number
`walletIndex + 1`.  The countdown waits between attempts only pass time
and produce no data, so they do not appear in the outcome list. -/

/-- Function `processWallet(wallet, abi, bytecode, walletIndex, totalWallets)` from
`run.js`: the list of outcomes of that wallet's attempts, in attempt
order.  `envs k` is the chain environment of the `k`-th attempt;
`countDraw` and `intervalDraw` are the two `Math.random()` draws of the
plan. -/
def processWallet (envs : ℕ → ChainEnv) (walletAddress : String)
    (walletIndex : ℕ) (countDraw intervalDraw : ℚ) : List Outcome :=
  let deployCount :=
    (getRandomInt MIN_DEPLOY_COUNT MAX_DEPLOY_COUNT countDraw).toNat
  let _intervalHours := getRandomElement INTERVAL_OPTIONS intervalDraw
  (List.range deployCount).map fun k =>
    deployContract (envs k) walletAddress (walletIndex * 100 + k + 1)
      (walletIndex + 1)

/-- The compiled artifact (`compileContract`'s return value). -/
structure Artifact where
  abi : String
  bytecode : String
deriving Repr, DecidableEq

/-- The error thrown by `main` when no credentials are loaded
(`run.js` line 263). -/
def NO_KEYS_MSG : String := "No private keys found in pk.txt"

/-- Environment of one whole run: the compiler's result, the credential
file content, address derivation, and every random draw and chain
response consumed, indexed by (shuffled) wallet position and attempt. -/
structure MainEnv where
  compileRes : Except String Artifact
  fileContent : List Char
  addrOf : List Char → String
  shuffleDraws : ℕ → ℚ
  countDraws : ℕ → ℚ
  intervalDraws : ℕ → ℚ
  chainEnvs : ℕ → ℕ → ChainEnv
  endTime : String

/-- The persisted run summary (`run.js` lines 324-342), restricted to the
fields the claims speak about; `startTime` is the first outcome's
timestamp when one exists. -/
structure RunSummary where
  totalDeployments : ℕ
  successful : ℕ
  failed : ℕ
  uniqueWallets : ℕ
  deployments : List Outcome
  startTime : Option String
  endTime : String
deriving Repr, DecidableEq

/-- Observable result of `main()`: the process exit code, the summary
written to `deployments.json` (if any), and the deployment attempts
performed. -/
structure MainResult where
  exitCode : ℕ
  written : Option RunSummary
  attempted : List Outcome
deriving Repr, DecidableEq

/-- Function `main()` from `run.js`.  Compilation failure and an empty credential
list throw inside the `try` block before any deployment attempt; the
`catch` block exits with code 1, so no summary is written.  Otherwise the
wallets are shuffled, processed in order, the outcomes concatenated in
production order, and the summary is built by partitioning on the
`success` flag and written at the very end; the process then exits with
code 0 regardless of individual failures. -/
def mainModel (env : MainEnv) : MainResult :=
  match env.compileRes with
  | .error _ => { exitCode := 1, written := none, attempted := [] }
  | .ok _artifact =>
    let privateKeys := getPrivateKeys env.fileContent
    if privateKeys.length = 0 then
      { exitCode := 1, written := none, attempted := [] }
    else
      let wallets := privateKeys.map env.addrOf
      let shuffledWallets := shuffleArray wallets env.shuffleDraws
      let allResults :=
        (shuffledWallets.enum.map fun p =>
          processWallet (env.chainEnvs p.1) p.2 p.1 (env.countDraws p.1)
            (env.intervalDraws p.1)).flatten
      let successful := allResults.filter (fun r => r.success)
      let failed := allResults.filter (fun r => !r.success)
      let uniqueWallets := (allResults.map (fun r => r.deployer)).dedup
      let summary : RunSummary :=
        { totalDeployments := allResults.length
          successful := successful.length
          failed := failed.length
          uniqueWallets := uniqueWallets.length
          deployments := allResults
          startTime := allResults.head?.map (fun r => r.timestamp)
          endTime := env.endTime }
      { exitCode := 0, written := some summary, attempted := allResults }

/-! ### Concrete environments used to exercise the model -/

/-- A per-attempt environment whose balance query answers exactly zero and
whose other calls would all succeed. -/
def envZero : ChainEnv :=
  { balanceRes := .ok 0
    gasDraw := 0
    deploySubmitRes := .ok ()
    waitDeployRes := .ok ()
    getAddressRes := .ok "0xC0DE"
    messageRes := .ok "Hello Tempo!"
    updateDraw := 0
    pacingDraw := 0
    msgDraw := 0
    setGasDraw := 0
    sendRes := .ok "0xFEED"
    waitTxRes := .ok ()
    message2Res := .ok "GM Tempo"
    now := "2026-01-01T00:00:00.000Z" }

/-- Like `envZero` but with a funded wallet (balance 5). -/
def envFunded : ChainEnv :=
  { envZero with balanceRes := .ok 5 }

/-- A whole-run environment: compilation succeeds, the credential file
holds the single key `k`, every random draw is `0`, and every attempt
sees `envZero`. -/
def envHappy : MainEnv :=
  { compileRes := .ok ⟨"[]", "0x60"⟩
    fileContent := ['k']
    addrOf := fun _ => "0xA11CE"
    shuffleDraws := fun _ => 0
    countDraws := fun _ => 0
    intervalDraws := fun _ => 0
    chainEnvs := fun _ _ => envZero
    endTime := "2026-01-01T01:00:00.000Z" }

/-- Like `envHappy` but the contract compilation fails. -/
def envCompileFail : MainEnv :=
  { envHappy with compileRes := .error "Contract compilation failed" }

/-- Fallback `RunSummary` used only as the default of `Option.getD`. -/
def emptySummary : RunSummary :=
  { totalDeployments := 0, successful := 0, failed := 0, uniqueWallets := 0
    deployments := [], startTime := none, endTime := "" }

/-! ## Helper lemmas -/

/-- Core bounds of `getRandomInt`: with a draw in `[0,1)` and
`min ≤ max`, the result lies in the inclusive range `[min, max]`. -/
lemma getRandomInt_bounds (min max : ℤ) (r : ℚ) (hmm : min ≤ max)
    (h0 : 0 ≤ r) (h1 : r < 1) :
    min ≤ getRandomInt min max r ∧ getRandomInt min max r ≤ max := by
  unfold getRandomInt
  have hn : (1 : ℚ) ≤ (max : ℚ) - (min : ℚ) + 1 := by
    have : (min : ℚ) ≤ (max : ℚ) := by exact_mod_cast hmm
    linarith
  constructor
  · have : (0 : ℤ) ≤ ⌊r * ((max : ℚ) - (min : ℚ) + 1)⌋ := by
      apply Int.le_floor.mpr
      push_cast
      nlinarith
    omega
  · have : ⌊r * ((max : ℚ) - (min : ℚ) + 1)⌋ < max - min + 1 := by
      apply Int.floor_lt.mpr
      push_cast
      nlinarith
    omega

/-- Evaluation of `getRandomInt` at draw `0`. -/
lemma getRandomInt_zero (min max : ℤ) : getRandomInt min max 0 = min := by
  simp [getRandomInt]

/-! ## Claims -/

/-- C10: for all integers `min ≤ max` and every value of the underlying
uniform draw in `[0,1)`, `getRandomInt(min, max)` returns an integer in
the inclusive range `[min, max]`; every randomized integer quantity of
the program drawn through it therefore stays within its inclusive
bounds. -/
theorem getRandomInt_in_range (min max : ℤ) (r : ℚ) (hmm : min ≤ max)
    (h0 : 0 ≤ r) (h1 : r < 1) :
    min ≤ getRandomInt min max r ∧ getRandomInt min max r ≤ max :=
  getRandomInt_bounds min max r hmm h0 h1

/-- Witness for C10 at `min = -600`, `max = 600`, draw `0`. -/
theorem getRandomInt_in_range_witness :
    ((-600 : ℤ) ≤ 600 ∧ (0 : ℚ) ≤ 0 ∧ (0 : ℚ) < 1) ∧
      ((-600 : ℤ) ≤ getRandomInt (-600) 600 0 ∧
        getRandomInt (-600) 600 0 ≤ 600) :=
  ⟨⟨by norm_num, le_refl 0, by norm_num⟩,
    getRandomInt_in_range (-600) 600 0 (by norm_num) (le_refl 0)
      (by norm_num)⟩

/-- C4: for every `intervalHours ∈ {6,12,24}` and every jitter draw in
`[0,1)`, the inter-deployment wait equals `intervalHours * 3600` plus an
integer jitter in `[-600, 600]`, hence lies in
`[intervalHours*3600 - 600, intervalHours*3600 + 600]` and is strictly
positive; in particular `interDeployDelay 6` lies in `[21000, 22200]`
and `interDeployDelay 24` lies in `[85800, 87000]`. -/
theorem interDeployDelay_in_range (intervalHours : ℤ) (r : ℚ)
    (hh : intervalHours = 6 ∨ intervalHours = 12 ∨ intervalHours = 24)
    (h0 : 0 ≤ r) (h1 : r < 1) :
    intervalHours * 3600 - 600 ≤ interDeployDelay intervalHours r ∧
      interDeployDelay intervalHours r ≤ intervalHours * 3600 + 600 ∧
      0 < interDeployDelay intervalHours r ∧
      (intervalHours = 6 →
        21000 ≤ interDeployDelay intervalHours r ∧
          interDeployDelay intervalHours r ≤ 22200) ∧
      (intervalHours = 24 →
        85800 ≤ interDeployDelay intervalHours r ∧
          interDeployDelay intervalHours r ≤ 87000) := by
  obtain ⟨hlo, hhi⟩ := getRandomInt_bounds (-600) 600 r (by norm_num) h0 h1
  unfold interDeployDelay
  rcases hh with rfl | rfl | rfl <;> omega

/-- Witness for C4 at `intervalHours = 6`, draw `0`. -/
theorem interDeployDelay_in_range_witness :
    (((6 : ℤ) = 6 ∨ (6 : ℤ) = 12 ∨ (6 : ℤ) = 24) ∧ (0 : ℚ) ≤ 0 ∧
        (0 : ℚ) < 1) ∧
      (6 * 3600 - 600 ≤ interDeployDelay 6 0 ∧
        interDeployDelay 6 0 ≤ 6 * 3600 + 600 ∧
        0 < interDeployDelay 6 0 ∧
        ((6 : ℤ) = 6 →
          21000 ≤ interDeployDelay 6 0 ∧ interDeployDelay 6 0 ≤ 22200) ∧
        ((6 : ℤ) = 24 →
          85800 ≤ interDeployDelay 6 0 ∧ interDeployDelay 6 0 ≤ 87000)) :=
  ⟨⟨Or.inl rfl, le_refl 0, by norm_num⟩,
    interDeployDelay_in_range 6 0 (Or.inl rfl) (le_refl 0) (by norm_num)⟩

/-- Putting back at position `k` the element taken from there is a
permutation: if `t[k] = y` then `y :: t.set k a` is a permutation of
`a :: t`. -/
lemma cons_set_perm {α : Type} (t : List α) (k : ℕ) (y a : α)
    (h : t[k]? = some y) : (y :: t.set k a).Perm (a :: t) := by
  induction t generalizing k with
  | nil => simp at h
  | cons b t ih =>
    cases k with
    | zero =>
      simp only [List.getElem?_cons_zero, Option.some_inj] at h
      subst h
      simpa using List.Perm.swap a b t
    | succ k =>
      simp only [List.getElem?_cons_succ] at h
      have h1 : (y :: b :: t.set k a).Perm (b :: y :: t.set k a) :=
        List.Perm.swap b y _
      have h2 : (b :: y :: t.set k a).Perm (b :: a :: t) :=
        (ih k h).cons b
      have h3 : (b :: a :: t).Perm (a :: b :: t) := List.Perm.swap a b t
      simpa using (h1.trans h2).trans h3

/-- A two-position swap by double `set` is a permutation. -/
lemma set_set_perm {α : Type} :
    ∀ (l : List α) (i j : ℕ) (x y : α), l[i]? = some x → l[j]? = some y →
      ((l.set i y).set j x).Perm l := by
  intro l
  induction l with
  | nil => intro i j x y hx; simp at hx
  | cons a t ih =>
    intro i j x y hx hy
    cases i with
    | zero =>
      simp only [List.getElem?_cons_zero, Option.some_inj] at hx
      subst hx
      cases j with
      | zero =>
        simp only [List.getElem?_cons_zero, Option.some_inj] at hy
        subst hy
        simp
      | succ m =>
        simp only [List.getElem?_cons_succ] at hy
        simpa using cons_set_perm t m y a hy
    | succ k =>
      simp only [List.getElem?_cons_succ] at hx
      cases j with
      | zero =>
        simp only [List.getElem?_cons_zero, Option.some_inj] at hy
        subst hy
        simpa using cons_set_perm t k x a hx
      | succ m =>
        simp only [List.getElem?_cons_succ] at hy
        simpa using (ih k m x y hx hy).cons a

/-- Every `swapIdx` application is a permutation of its input. -/
lemma swapIdx_perm {α : Type} (l : List α) (i j : ℕ) :
    (swapIdx l i j).Perm l := by
  unfold swapIdx
  rcases hx : l[i]? with _ | x
  · exact List.Perm.refl l
  · rcases hy : l[j]? with _ | y
    · exact List.Perm.refl l
    · exact set_set_perm l i j x y hx hy

/-- The shuffle loop never writes the `input` field. -/
lemma shuffleLoop_input {α : Type} (rs : ℕ → ℚ) (s : ShuffleState α)
    (n : ℕ) : (shuffleLoop rs s n).input = s.input := by
  induction n generalizing s with
  | zero => rfl
  | succ n ih => simp [shuffleLoop, shuffleStep, ih]

/-- The shuffle loop permutes the `shuffled` field. -/
lemma shuffleLoop_perm {α : Type} (rs : ℕ → ℚ) (s : ShuffleState α)
    (n : ℕ) : ((shuffleLoop rs s n).shuffled).Perm s.shuffled := by
  induction n generalizing s with
  | zero => exact List.Perm.refl _
  | succ n ih =>
    have h1 := ih (shuffleStep rs s (n + 1))
    have h2 : (shuffleStep rs s (n + 1)).shuffled.Perm s.shuffled :=
      swapIdx_perm s.shuffled (n + 1) _
    exact h1.trans h2

/-- C6: `shuffleArray` does not mutate its input: after the call the
input array holds the same elements in the same order (the loop writes
only the local copy), and the returned list is exactly the final state of
that copy. -/
theorem shuffleArray_input_unchanged {α : Type} (array : List α)
    (rs : ℕ → ℚ) :
    (shuffleArrayRun array rs).input = array ∧
      shuffleArray array rs = (shuffleArrayRun array rs).shuffled :=
  ⟨shuffleLoop_input rs _ _, rfl⟩

/-- C5: for every input sequence and draws in `[0,1)`, `shuffleArray`
returns a sequence of the same length that is a permutation of its input
(so every element of the input appears in the output with the same
multiplicity — exactly once for distinct elements). -/
theorem shuffleArray_perm {α : Type} (array : List α) (rs : ℕ → ℚ)
    (hr : ∀ i, 0 ≤ rs i ∧ rs i < 1) :
    (shuffleArray array rs).Perm array ∧
      (shuffleArray array rs).length = array.length := by
  have hp : (shuffleArray array rs).Perm array := shuffleLoop_perm rs _ _
  exact ⟨hp, hp.length_eq⟩

/-- Witness for C5 on the list `[0, 1, 2]` with all draws `0`. -/
theorem shuffleArray_perm_witness :
    (∀ i : ℕ, 0 ≤ (0 : ℚ) ∧ (0 : ℚ) < 1) ∧
      ((shuffleArray [0, 1, 2] (fun _ => (0 : ℚ))).Perm [0, 1, 2] ∧
        (shuffleArray [0, 1, 2] (fun _ => (0 : ℚ))).length =
          ([0, 1, 2] : List ℕ).length) :=
  ⟨fun _ => ⟨le_refl 0, by norm_num⟩,
    shuffleArray_perm [0, 1, 2] (fun _ => 0)
      (fun _ => ⟨le_refl 0, by norm_num⟩)⟩

/-- C1: `deployContract` always returns a `DeploymentOutcome` and never
propagates a failure: on the happy path the outcome has `success = true`
with deployer, contract address, explorer link, timestamp, wallet index
and deploy number set; on any failure at any step the outcome has
`success = false`, the error message of the underlying failure, and no
contract address or transaction hash. -/
theorem deployContract_total (env : ChainEnv) (walletAddress : String)
    (deployNumber walletIndex : ℕ) :
    (∃ ca th, (deployBody env).1 = .ok (ca, th) ∧
      deployContract env walletAddress deployNumber walletIndex =
        { success := true
          deployer := walletAddress
          contractAddress := some ca
          txHash := some th
          explorer := some (EXPLORER_URL ++ "/address/" ++ ca)
          error := none
          timestamp := env.now
          walletIndex := walletIndex
          deployNumber := deployNumber }) ∨
    (∃ msg, (deployBody env).1 = .error msg ∧
      deployContract env walletAddress deployNumber walletIndex =
        { success := false
          deployer := walletAddress
          contractAddress := none
          txHash := none
          explorer := none
          error := some msg
          timestamp := env.now
          walletIndex := walletIndex
          deployNumber := deployNumber }) := by
  rcases hb : (deployBody env).1 with msg | ⟨ca, th⟩
  · exact Or.inr ⟨msg, rfl, by simp [deployContract, hb]⟩
  · exact Or.inl ⟨ca, th, rfl, by simp [deployContract, hb]⟩

/-- C2: if the balance query answers exactly zero, the attempt
short-circuits to a failed outcome with the insufficient-balance message,
no contract address, and the chain client's deploy entry point is never
invoked. -/
theorem zero_balance_short_circuit (env : ChainEnv) (walletAddress : String)
    (deployNumber walletIndex : ℕ) (hb : env.balanceRes = .ok 0) :
    (deployContract env walletAddress deployNumber walletIndex).success
        = false ∧
      (deployContract env walletAddress deployNumber
          walletIndex).contractAddress = none ∧
      (deployContract env walletAddress deployNumber walletIndex).txHash
        = none ∧
      (deployContract env walletAddress deployNumber walletIndex).error
        = some BALANCE_ZERO_MSG ∧
      ChainCall.deploySubmit ∉ deployTrace env := by
  have h1 : deployBody env = (.error BALANCE_ZERO_MSG, [.getBalance]) := by
    unfold deployBody
    rw [hb]
    simp
  refine ⟨?_, ?_, ?_, ?_, ?_⟩ <;> simp [deployContract, deployTrace, h1]

/-- Witness for C2: a concrete environment whose balance is zero. -/
theorem zero_balance_short_circuit_witness :
    (envZero.balanceRes = Except.ok 0) ∧
      ((deployContract envZero "0xA11CE" 1 1).success = false ∧
        (deployContract envZero "0xA11CE" 1 1).contractAddress = none ∧
        (deployContract envZero "0xA11CE" 1 1).txHash = none ∧
        (deployContract envZero "0xA11CE" 1 1).error
          = some BALANCE_ZERO_MSG ∧
        ChainCall.deploySubmit ∉ deployTrace envZero) :=
  ⟨rfl, zero_balance_short_circuit envZero "0xA11CE" 1 1 rfl⟩

/-- C9: on a successful attempt in which the random follow-up branch is
not taken, the outcome has its `txHash` field present and equal to null
(`some none`, not absent), while `success = true` and the contract
address is set. -/
theorem no_update_txHash_null (env : ChainEnv)
    (walletAddress ca m : String) (deployNumber walletIndex b : ℕ)
    (hb : env.balanceRes = .ok b) (hb0 : b ≠ 0)
    (hd : env.deploySubmitRes = .ok ())
    (hw : env.waitDeployRes = .ok ())
    (ha : env.getAddressRes = .ok ca)
    (hm : env.messageRes = .ok m)
    (hu : ¬ env.updateDraw > 3 / 10) :
    (deployContract env walletAddress deployNumber walletIndex).success
        = true ∧
      (deployContract env walletAddress deployNumber walletIndex).txHash
        = some none ∧
      (deployContract env walletAddress deployNumber
          walletIndex).contractAddress = some ca := by
  have h1 : (deployBody env).1 = .ok (ca, none) := by
    unfold deployBody
    rw [hb, hd, hw, ha, hm]
    simp [hb0, hu]
  refine ⟨?_, ?_, ?_⟩ <;> simp [deployContract, h1]

/-- Witness for C9: a funded environment whose follow-up draw `0` does
not exceed `0.3`. -/
theorem no_update_txHash_null_witness :
    (envFunded.balanceRes = Except.ok 5 ∧ (5 : ℕ) ≠ 0 ∧
        envFunded.deploySubmitRes = Except.ok () ∧
        envFunded.waitDeployRes = Except.ok () ∧
        envFunded.getAddressRes = Except.ok "0xC0DE" ∧
        envFunded.messageRes = Except.ok "Hello Tempo!" ∧
        ¬ envFunded.updateDraw > 3 / 10) ∧
      ((deployContract envFunded "0xA11CE" 1 1).success = true ∧
        (deployContract envFunded "0xA11CE" 1 1).txHash = some none ∧
        (deployContract envFunded "0xA11CE" 1 1).contractAddress
          = some "0xC0DE") := by
  have hu : ¬ envFunded.updateDraw > 3 / 10 := by
    norm_num [envFunded, envZero]
  exact ⟨⟨rfl, by norm_num, rfl, rfl, rfl, rfl, hu⟩,
    no_update_txHash_null envFunded "0xA11CE" "0xC0DE" "Hello Tempo!" 1 1 5
      rfl (by norm_num) rfl rfl rfl rfl hu⟩

/-- Filtering a list by a flag and by its negation partitions it. -/
lemma filter_partition_length {α : Type} (l : List α) (p : α → Bool) :
    (l.filter p).length + (l.filter (fun a => !p a)).length = l.length :=
  (List.length_eq_length_filter_add p).symm

/-- An `Option` known to be `some` equals `some` of its `getD`. -/
lemma option_eq_some_getD {α : Type} (o : Option α) (v : α)
    (h : o.isSome) : o = some (o.getD v) := by
  cases o <;> simp_all

/-- When compilation succeeds and at least one key is loaded, the run
completes and writes a summary. -/
lemma mainModel_written_isSome (env : MainEnv) (a : Artifact)
    (hc : env.compileRes = .ok a)
    (hk : (getPrivateKeys env.fileContent).length ≠ 0) :
    (mainModel env).written.isSome := by
  simp [mainModel, hc, hk]

/-- C7: in every persisted run summary, the number of successful outcomes
plus the number of failed outcomes equals the total number of outcome
records, because the summary partitions the outcome list by the boolean
`success` flag. -/
theorem summary_partition (env : MainEnv) (s : RunSummary)
    (hs : (mainModel env).written = some s) :
    s.successful + s.failed = s.deployments.length ∧
      s.totalDeployments = s.deployments.length := by
  rcases hcomp : env.compileRes with e | a
  · simp [mainModel, hcomp] at hs
  · by_cases hk : (getPrivateKeys env.fileContent).length = 0
    · simp [mainModel, hcomp, hk] at hs
    · simp only [mainModel, hcomp, hk, if_false, Option.some.injEq] at hs
      subst hs
      constructor
      · exact filter_partition_length _ _
      · rfl

/-- Witness for C7: the summary written by the concrete run `envHappy`. -/
theorem summary_partition_witness :
    ((mainModel envHappy).written
        = some ((mainModel envHappy).written.getD emptySummary)) ∧
      (((mainModel envHappy).written.getD emptySummary).successful +
          ((mainModel envHappy).written.getD emptySummary).failed =
          ((mainModel envHappy).written.getD
              emptySummary).deployments.length ∧
        ((mainModel envHappy).written.getD emptySummary).totalDeployments =
          ((mainModel envHappy).written.getD
              emptySummary).deployments.length) := by
  have hsome : (mainModel envHappy).written.isSome :=
    mainModel_written_isSome envHappy ⟨"[]", "0x60"⟩ rfl (by decide)
  have heq := option_eq_some_getD _ emptySummary hsome
  exact ⟨heq, summary_partition envHappy _ heq⟩

/-- C8: if contract compilation fails or zero credentials are loaded, the
run aborts with a non-zero exit code, no summary is written, and no
deployment attempt is performed. -/
theorem startup_failure_aborts (env : MainEnv)
    (h : (∃ e, env.compileRes = .error e) ∨
      getPrivateKeys env.fileContent = []) :
    (mainModel env).exitCode ≠ 0 ∧ (mainModel env).written = none ∧
      (mainModel env).attempted = [] := by
  rcases h with ⟨e, he⟩ | hk
  · simp [mainModel, he]
  · rcases hcomp : env.compileRes with e | a
    · simp [mainModel, hcomp]
    · simp [mainModel, hcomp, hk]

/-- Witness for C8: a run whose compilation fails. -/
theorem startup_failure_aborts_witness :
    ((∃ e, envCompileFail.compileRes = Except.error e) ∨
        getPrivateKeys envCompileFail.fileContent = []) ∧
      ((mainModel envCompileFail).exitCode ≠ 0 ∧
        (mainModel envCompileFail).written = none ∧
        (mainModel envCompileFail).attempted = []) :=
  ⟨Or.inl ⟨"Contract compilation failed", rfl⟩,
    startup_failure_aborts envCompileFail
      (Or.inl ⟨"Contract compilation failed", rfl⟩)⟩

/-- The executor stamps the outcome with the given deploy number. -/
lemma deployContract_deployNumber (env : ChainEnv) (walletAddress : String)
    (deployNumber walletIndex : ℕ) :
    (deployContract env walletAddress deployNumber
      walletIndex).deployNumber = deployNumber := by
  unfold deployContract
  rcases hb : (deployBody env).1 with msg | ⟨ca, th⟩ <;> simp

/-- The deploy numbers of one wallet's attempts are
`walletIndex*100 + k + 1` for `k` below the drawn deploy count. -/
lemma processWallet_map_deployNumber (envs : ℕ → ChainEnv)
    (walletAddress : String) (walletIndex : ℕ)
    (countDraw intervalDraw : ℚ) :
    (processWallet envs walletAddress walletIndex countDraw
        intervalDraw).map (fun o => o.deployNumber) =
      (List.range ((getRandomInt MIN_DEPLOY_COUNT MAX_DEPLOY_COUNT
          countDraw).toNat)).map (fun k => walletIndex * 100 + k + 1) := by
  unfold processWallet
  simp [List.map_map, Function.comp, deployContract_deployNumber]

/-- Every deploy number of a wallet at position at least `s` is at least
`s * 100 + 1`. -/
lemma deployNumbers_lower_bound (c : ℕ → ℕ) :
    ∀ (n s x : ℕ),
      x ∈ (((List.range' s n).map (fun w =>
        (List.range (c w)).map (fun k => w * 100 + k + 1))).flatten) →
      s * 100 + 1 ≤ x := by
  intro n
  induction n with
  | zero => intro s x hx; simp at hx
  | succ n ih =>
    intro s x hx
    rw [List.range'_succ] at hx
    simp only [List.map_cons, List.flatten_cons, List.mem_append] at hx
    rcases hx with hx | hx
    · simp only [List.mem_map, List.mem_range] at hx
      obtain ⟨k, hk, rfl⟩ := hx
      omega
    · have := ih (s + 1) x hx
      omega

/-- With at most 100 attempts per wallet, the deploy numbers of distinct
wallet positions and attempt indices are pairwise distinct. -/
lemma deployNumbers_nodup_aux (c : ℕ → ℕ) (hc : ∀ w, c w ≤ 100) :
    ∀ (n s : ℕ),
      (((List.range' s n).map (fun w =>
        (List.range (c w)).map (fun k => w * 100 + k + 1))).flatten).Nodup := by
  intro n
  induction n with
  | zero => intro s; simp
  | succ n ih =>
    intro s
    rw [List.range'_succ]
    simp only [List.map_cons, List.flatten_cons]
    rw [List.nodup_append]
    refine ⟨?_, ih (s + 1), ?_⟩
    · refine List.Nodup.map ?_ (List.nodup_range _)
      intro a b hab
      dsimp only at hab
      omega
    · intro x hx1 hx2
      simp only [List.mem_map, List.mem_range] at hx1
      obtain ⟨k, hk, rfl⟩ := hx1
      have h2 := deployNumbers_lower_bound c n (s + 1) _ hx2
      have h3 := hc s
      omega

/-- C3: in every run with plan draws in `[0,1)`, the deploy numbers of
the outcome records are pairwise distinct: each is
`walletIndex * 100 + attemptIndex + 1`, the per-wallet attempt count is
drawn from `[2,4]` (hence at most `100`), and wallet positions are
distinct, so no two outcomes share a deploy number. -/
theorem run_deployNumbers_nodup (env : MainEnv)
    (hr : ∀ i, 0 ≤ env.countDraws i ∧ env.countDraws i < 1) :
    ((mainModel env).attempted.map (fun o => o.deployNumber)).Nodup := by
  have hc : ∀ w, (getRandomInt MIN_DEPLOY_COUNT MAX_DEPLOY_COUNT
      (env.countDraws w)).toNat ≤ 100 := by
    intro w
    obtain ⟨h1, h2⟩ := getRandomInt_bounds MIN_DEPLOY_COUNT
      MAX_DEPLOY_COUNT (env.countDraws w)
      (by norm_num [MIN_DEPLOY_COUNT, MAX_DEPLOY_COUNT]) (hr w).1 (hr w).2
    have h2' : getRandomInt MIN_DEPLOY_COUNT MAX_DEPLOY_COUNT
        (env.countDraws w) ≤ 4 := by
      simpa [MAX_DEPLOY_COUNT] using h2
    omega
  rcases hcomp : env.compileRes with e | a
  · simp [mainModel, hcomp]
  · by_cases hk : (getPrivateKeys env.fileContent).length = 0
    · simp [mainModel, hcomp, hk]
    · simp only [mainModel, hcomp, hk, if_false]
      rw [List.map_flatten, List.map_map]
      have hfun : ((List.map fun o : Outcome => o.deployNumber) ∘
          fun p : ℕ × String => processWallet (env.chainEnvs p.1) p.2 p.1
            (env.countDraws p.1) (env.intervalDraws p.1)) =
          (fun w => (List.range ((getRandomInt MIN_DEPLOY_COUNT
            MAX_DEPLOY_COUNT (env.countDraws w)).toNat)).map
              (fun k => w * 100 + k + 1)) ∘ Prod.fst := by
        funext p
        simp [Function.comp, processWallet_map_deployNumber]
      rw [hfun, ← List.map_map, List.enum_map_fst, List.range_eq_range']
      exact deployNumbers_nodup_aux
        (fun w => (getRandomInt MIN_DEPLOY_COUNT MAX_DEPLOY_COUNT
          (env.countDraws w)).toNat) hc _ 0

/-- Witness for C3: the concrete run `envHappy` with all draws `0`. -/
theorem run_deployNumbers_nodup_witness :
    (∀ i, 0 ≤ envHappy.countDraws i ∧ envHappy.countDraws i < 1) ∧
      ((mainModel envHappy).attempted.map (fun o => o.deployNumber)).Nodup := by
  have hr : ∀ i, 0 ≤ envHappy.countDraws i ∧ envHappy.countDraws i < 1 := by
    intro i
    constructor <;> norm_num [envHappy]
  exact ⟨hr, run_deployNumbers_nodup envHappy hr⟩

end TempoBot
